import Mathlib

/-!
Verification development for the jsTrack automatic object-tracking pipeline
(src/ts/opencv-tracking.ts: the tracking engine, and the auto-track modal
submit handler that drives it).

The engine is embedded shallowly: coordinates and confidences are rationals,
frame numbers are integers, and the outputs of the OpenCV primitives
(cv.minMaxLoc over the correlation matrix, cv.calcOpticalFlowPyrLK) are
supplied by an oracle environment, since they depend on pixel data the
embedding does not compute.  The async generators become functions producing
the list of yielded items; the per-frame loops are fuel-indexed structural
recursions whose fuel is the exact iteration count of the source loop.
Seeks are modelled as succeeding (the seek helper itself is modelled
separately for its own claim).
-/

namespace JsTrack

/-- JavaScript Math.round on a rational: round half up, i.e. floor of x + 1/2.
This agrees with Math.round for every finite input, negatives included. -/
def jsRound (q : ℚ) : ℤ := ⌊q + 1/2⌋

/-- Source function clamp(value, min, max) = Math.max(min, Math.min(max, value)). -/
def clampQ (value lo hi : ℚ) : ℚ := max lo (min hi value)

/-- Integer form of clamp, used where the source clamps an already rounded value
with integer bounds. -/
def clampZ (value lo hi : ℤ) : ℤ := max lo (min hi value)

/-- Axis-aligned rectangle in video pixel coordinates (interface ROI). -/
structure ROI where
  x : ℚ
  y : ℚ
  width : ℚ
  height : ℚ
deriving DecidableEq

/-- The two algorithm tags of TrackingConfig.algorithm. -/
inductive Algorithm where
  | template
  | opticalFlow
deriving DecidableEq

/-- Tracking configuration (interface TrackingConfig), together with the video
dimensions that the source reads off the video element. -/
structure TrackingConfig where
  videoWidth : ℤ
  videoHeight : ℤ
  roi : ROI
  startFrame : ℤ
  endFrame : ℤ
  algorithm : Algorithm
  searchMargin : ℚ
deriving DecidableEq

/-- One tracking result (interface TrackingResult). -/
structure TrackingResult where
  frameNumber : ℤ
  x : ℚ
  y : ℚ
  confidence : ℚ
deriving DecidableEq

/-- An item yielded by a tracker generator: either a TrackingProgress record
(whose frame field is the 1-based offset frameNum - startFrame) or a
TrackingResult. -/
inductive Item where
  | progress (frame total : ℤ)
  | result (r : TrackingResult)
deriving DecidableEq

/-- Output of cv.minMaxLoc on the correlation matrix: location of the maximum
and the maximal value. -/
structure MatchOut where
  maxLocX : ℤ
  maxLocY : ℤ
  maxVal : ℚ
deriving DecidableEq

/-- Output of cv.calcOpticalFlowPyrLK for the single tracked point: the status
byte (status.data[0]) and the new position (nextPts.data32F). -/
structure FlowOut where
  statusVal : ℕ
  newX : ℚ
  newY : ℚ
deriving DecidableEq

/-- Oracle environment supplying the outputs of the OpenCV primitives, which
depend on pixel data outside the embedding.  matchAt is indexed by the frame
number and the search rectangle handed to cv.matchTemplate; flowAt by the
frame number and the previous point handed to cv.calcOpticalFlowPyrLK. -/
structure CVEnv where
  matchAt : ℤ → ℤ → ℤ → ℤ → ℤ → MatchOut
  flowAt : ℤ → ℚ → ℚ → FlowOut

/-- Abort signal as observed by the once-per-frame loop-top check: the value
signal.aborted has when the iteration for the given frame number begins. -/
def Signal : Type := ℤ → Bool

-- ── Template-match tracker: initialization (source lines 96-125) ──

/-- roiRect.x = clamp(Math.round(roi.x), 0, videoWidth - 1). -/
def roiRectX (cfg : TrackingConfig) : ℤ :=
  clampZ (jsRound cfg.roi.x) 0 (cfg.videoWidth - 1)

/-- roiRect.y = clamp(Math.round(roi.y), 0, videoHeight - 1). -/
def roiRectY (cfg : TrackingConfig) : ℤ :=
  clampZ (jsRound cfg.roi.y) 0 (cfg.videoHeight - 1)

/-- roiRect.width after the out-of-bounds correction:
min(clamp(Math.round(roi.width), 1, videoWidth), videoWidth - roiRect.x). -/
def roiRectW (cfg : TrackingConfig) : ℤ :=
  min (clampZ (jsRound cfg.roi.width) 1 cfg.videoWidth) (cfg.videoWidth - roiRectX cfg)

/-- roiRect.height after the out-of-bounds correction. -/
def roiRectH (cfg : TrackingConfig) : ℤ :=
  min (clampZ (jsRound cfg.roi.height) 1 cfg.videoHeight) (cfg.videoHeight - roiRectY cfg)

/-- templateW = template.cols; the template is startGray.roi(roiRect), so its
column count is the rectangle width. -/
def templateW (cfg : TrackingConfig) : ℤ := roiRectW cfg

/-- templateH = template.rows. -/
def templateH (cfg : TrackingConfig) : ℤ := roiRectH cfg

/-- Initial match center x: roiRect.x + roiRect.width / 2. -/
def matchCenterX0 (cfg : TrackingConfig) : ℚ :=
  (roiRectX cfg : ℚ) + (roiRectW cfg : ℚ) / 2

/-- Initial match center y: roiRect.y + roiRect.height / 2. -/
def matchCenterY0 (cfg : TrackingConfig) : ℚ :=
  (roiRectY cfg : ℚ) + (roiRectH cfg : ℚ) / 2

-- ── Template-match tracker: per-frame search window (source lines 143-150) ──

/-- searchX = clamp(Math.round(matchCenterX - templateW / 2 - searchMargin), 0, videoWidth - 1). -/
def searchX (cfg : TrackingConfig) (cX : ℚ) : ℤ :=
  clampZ (jsRound (cX - (templateW cfg : ℚ) / 2 - cfg.searchMargin)) 0 (cfg.videoWidth - 1)

/-- searchY, as searchX but vertical. -/
def searchY (cfg : TrackingConfig) (cY : ℚ) : ℤ :=
  clampZ (jsRound (cY - (templateH cfg : ℚ) / 2 - cfg.searchMargin)) 0 (cfg.videoHeight - 1)

/-- searchW = min(Math.round(templateW + 2 * searchMargin), videoWidth - searchX). -/
def searchW (cfg : TrackingConfig) (cX : ℚ) : ℤ :=
  min (jsRound ((templateW cfg : ℚ) + 2 * cfg.searchMargin)) (cfg.videoWidth - searchX cfg cX)

/-- searchH = min(Math.round(templateH + 2 * searchMargin), videoHeight - searchY). -/
def searchH (cfg : TrackingConfig) (cY : ℚ) : ℤ :=
  min (jsRound ((templateH cfg : ℚ) + 2 * cfg.searchMargin)) (cfg.videoHeight - searchY cfg cY)

/-- The minMaxLoc output for the frame, given the current match center: the
search rectangle is computed from the center exactly as in the source. -/
def stepMatch (cfg : TrackingConfig) (cv : CVEnv) (n : ℤ) (cX cY : ℚ) : MatchOut :=
  cv.matchAt n (searchX cfg cX) (searchY cfg cY) (searchW cfg cX) (searchH cfg cY)

/-- New match center x: matchX + templateW / 2 where matchX = searchX + minMax.maxLoc.x. -/
def nextCenterX (cfg : TrackingConfig) (cv : CVEnv) (n : ℤ) (cX cY : ℚ) : ℚ :=
  ((searchX cfg cX + (stepMatch cfg cv n cX cY).maxLocX : ℤ) : ℚ) + (templateW cfg : ℚ) / 2

/-- New match center y. -/
def nextCenterY (cfg : TrackingConfig) (cv : CVEnv) (n : ℤ) (cX cY : ℚ) : ℚ :=
  ((searchY cfg cY + (stepMatch cfg cv n cX cY).maxLocY : ℤ) : ℚ) + (templateH cfg : ℚ) / 2

/-- Per-frame loop of templateMatchTrack (source lines 128-193).  The fuel
argument counts the remaining iterations; templateMatchTrack supplies exactly
the iteration count of the source loop, so the fuel never runs out before the
loop condition frameNum <= endFrame fails.  Each iteration checks the abort
signal, yields a progress record, computes the clamped search window, either
terminates with one zero-confidence result when the template does not fit, or
yields the match result and recurses with the updated center. -/
def templateLoop (cfg : TrackingConfig) (cv : CVEnv) (signal : Signal) :
    ℕ → ℤ → ℚ → ℚ → List Item
  | 0, _, _, _ => []
  | fuel + 1, n, cX, cY =>
    if cfg.endFrame < n then []
    else if signal n then []
    else
      let pr : Item := .progress (n - cfg.startFrame) (cfg.endFrame - cfg.startFrame)
      if searchW cfg cX < templateW cfg ∨ searchH cfg cY < templateH cfg then
        [pr, .result ⟨n, cX, cY, 0⟩]
      else
        pr :: .result ⟨n, nextCenterX cfg cv n cX cY, nextCenterY cfg cv n cX cY,
            (stepMatch cfg cv n cX cY).maxVal⟩ ::
          templateLoop cfg cv signal fuel (n + 1)
            (nextCenterX cfg cv n cX cY) (nextCenterY cfg cv n cX cY)

/-- templateMatchTrack: the list of items yielded by one run of the
template-matching generator. -/
def templateMatchTrack (cfg : TrackingConfig) (cv : CVEnv) (signal : Signal) : List Item :=
  templateLoop cfg cv signal (cfg.endFrame - cfg.startFrame).toNat (cfg.startFrame + 1)
    (matchCenterX0 cfg) (matchCenterY0 cfg)

-- ── Optical-flow tracker (source lines 203-289) ──

/-- Initial tracked point x: roi.x + roi.width / 2 (no clamping in this path). -/
def flowPointX0 (cfg : TrackingConfig) : ℚ := cfg.roi.x + cfg.roi.width / 2

/-- Initial tracked point y: roi.y + roi.height / 2. -/
def flowPointY0 (cfg : TrackingConfig) : ℚ := cfg.roi.y + cfg.roi.height / 2

/-- Per-frame loop of opticalFlowTrack (source lines 232-284).  Each iteration
checks the abort signal, yields a progress record, runs the flow oracle, and
either carries the new point forward with a confidence-1 result or terminates
with one confidence-0 result at the newly computed position. -/
def flowLoop (cfg : TrackingConfig) (cv : CVEnv) (signal : Signal) :
    ℕ → ℤ → ℚ → ℚ → List Item
  | 0, _, _, _ => []
  | fuel + 1, n, pX, pY =>
    if cfg.endFrame < n then []
    else if signal n then []
    else
      let pr : Item := .progress (n - cfg.startFrame) (cfg.endFrame - cfg.startFrame)
      let f := cv.flowAt n pX pY
      if f.statusVal = 1 then
        pr :: .result ⟨n, f.newX, f.newY, 1⟩ ::
          flowLoop cfg cv signal fuel (n + 1) f.newX f.newY
      else
        [pr, .result ⟨n, f.newX, f.newY, 0⟩]

/-- opticalFlowTrack: the list of items yielded by one run of the optical-flow
generator. -/
def opticalFlowTrack (cfg : TrackingConfig) (cv : CVEnv) (signal : Signal) : List Item :=
  flowLoop cfg cv signal (cfg.endFrame - cfg.startFrame).toNat (cfg.startFrame + 1)
    (flowPointX0 cfg) (flowPointY0 cfg)

/-- trackObject (source lines 295-304): dispatch on the configured algorithm. -/
def trackObject (cfg : TrackingConfig) (cv : CVEnv) (signal : Signal) : List Item :=
  if cfg.algorithm = .opticalFlow then opticalFlowTrack cfg cv signal
  else templateMatchTrack cfg cv signal

-- ── Observations on item lists ──

/-- The tracking results among the yielded items, in order. -/
def resultsOf (items : List Item) : List TrackingResult :=
  items.filterMap fun it => match it with
    | .result r => some r
    | .progress _ _ => none

/-- Whether an item is a result (as opposed to a progress record). -/
def isRes : Item → Bool
  | .result _ => true
  | .progress _ _ => false

/-- The absolute frame number an item pertains to: a result carries it
directly; a progress record carries the offset frameNum - startFrame, so its
absolute frame is startFrame plus that offset. -/
def pertFrame (startF : ℤ) : Item → ℤ
  | .progress f _ => startF + f
  | .result r => r.frameNumber

/-- Kind-and-frame skeleton of an item. -/
def skel (startF : ℤ) (it : Item) : Bool × ℤ := (isRes it, pertFrame startF it)

/-- Skeleton of a fully sequential run: for each of k consecutive frames
starting at n, a progress record followed by that frame's result. -/
def runSkel : ℤ → ℕ → List (Bool × ℤ)
  | _, 0 => []
  | n, k + 1 => (false, n) :: (true, n) :: runSkel (n + 1) k

-- ── seekToFrame (source lines 39-60) ──

/-- Outcome of one seekToFrame call: the promise resolves without a seek,
resolves after the seeked event, or rejects with the seek-timeout error. -/
inductive SeekOutcome where
  | resolvedNoSeek
  | resolvedSeeked
  | timeoutError
deriving DecidableEq

/-- Model of seekToFrame(video, time).  current is video.currentTime when the
call is made; seekDelay is the time in milliseconds after which the seeked
event fires once video.currentTime is assigned (none when the event never
fires, e.g. stalled media).  Returns the outcome and the value assigned to
video.currentTime (none when no seek was triggered).  The source resolves
immediately when the current position is within the tolerance
Math.abs(video.currentTime - time) < 0.001; otherwise it registers a 5000 ms
timeout and a seeked listener and assigns currentTime, resolving on seeked
and rejecting on timeout, whichever fires first. -/
def seekToFrame (current time : ℚ) (seekDelay : Option ℚ) : SeekOutcome × Option ℚ :=
  if |current - time| < 1/1000 then (.resolvedNoSeek, none)
  else
    match seekDelay with
    | some d => if d < 5000 then (.resolvedSeeked, some time) else (.timeoutError, some time)
    | none => (.timeoutError, some time)

-- ── Session controller (auto-track modal submit handler) ──

/-- A data-table row as appended by track.table.addRow: the exported t and
scaled x, y of a point. -/
structure TableRow where
  t : ℚ
  x : ℚ
  y : ℚ
deriving DecidableEq

/-- The data of one Point: the frame it sits on and its raw coordinates. -/
structure PointData where
  frame : ℤ
  x : ℚ
  y : ℚ
deriving DecidableEq

/-- The compound undo/redo action registered by master.change for one batch:
the closures capture the list of points added during the run, here recorded by
their identifiers. -/
structure BatchAction where
  addedPoints : List ℕ
deriving DecidableEq

/-- Modelled from the spec: the external Track/Point/Timeline/undo state the
submit handler mutates (classes/point, classes/track, classes/timeline and the
undo system are not under src/; section 6 of the spec gives their
capabilities).  trackPoints is the track.points mapping (frame number to at
most one point); framePoints the per-frame point lists; pointsById the
allocated Point objects; tableRows the data table; undoStack the undo
system's list of registered compound actions; the remaining fields record the
UI facts the claims mention (playhead position, detached tracking video,
modal visibility, ROI overlay). -/
structure SessionState where
  trackPoints : ℤ → Option ℕ
  framePoints : ℤ → List ℕ
  pointsById : ℕ → Option PointData
  nextId : ℕ
  activeFrames : List ℤ
  tableRows : List TableRow
  undoStack : List BatchAction
  currentFrame : ℤ
  modalOpen : Bool
  overlayActive : Bool
  trackingVideoActive : Bool

/-- Environment of the commit phase: which frame numbers exist in
master.timeline.frames, and what point.export() returns for a point (none
models an export that produces no row). -/
structure SessionEnv where
  frameExists : ℤ → Bool
  exportP : PointData → Option TableRow
  confirmOverwrite : Bool

/-- Modelled from the spec: point.remove() of classes/point (not under src/)
detaches the point from the track mapping and from the frame point list
(spec section 6: track.points maps each frame to at most one point, and
remove/unRemove take a point out of, and back into, that model). -/
def removePoint (id : ℕ) (st : SessionState) : SessionState :=
  match st.pointsById id with
  | none => st
  | some pd =>
    { st with
      trackPoints := fun f =>
        if f = pd.frame ∧ st.trackPoints pd.frame = some id then none else st.trackPoints f
      framePoints := fun f =>
        if f = pd.frame then (st.framePoints pd.frame).erase id else st.framePoints f }

/-- Modelled from the spec: point.unRemove() of classes/point (not under
src/) re-attaches the point to the track mapping and the frame point list. -/
def unRemovePoint (id : ℕ) (st : SessionState) : SessionState :=
  match st.pointsById id with
  | none => st
  | some pd =>
    { st with
      trackPoints := fun f => if f = pd.frame then some id else st.trackPoints f
      framePoints := fun f =>
        if f = pd.frame then st.framePoints pd.frame ++ [id] else st.framePoints f }

/-- First half of one commit-loop iteration (source lines 726-729): if there
is an existing point at this frame, remove it first. -/
def commitTarget (st : SessionState) (r : TrackingResult) : SessionState :=
  match st.trackPoints r.frameNumber with
  | some oldId => removePoint oldId st
  | none => st

/-- Second half of one commit-loop iteration (source lines 731-742):
construct the new Point directly (bypassing the per-point undo registration of
addPoint), enter it in track.points and frame.points, push the frame on
activeFrames, and append the exported table row.  The new point is allocated
under the next free identifier. -/
def commitInsert (env : SessionEnv) (st1 : SessionState) (r : TrackingResult) :
    SessionState :=
  { st1 with
    pointsById := fun j =>
      if j = st1.nextId then some ⟨r.frameNumber, r.x, r.y⟩ else st1.pointsById j
    nextId := st1.nextId + 1
    trackPoints := fun f => if f = r.frameNumber then some st1.nextId else st1.trackPoints f
    framePoints := fun f =>
      if f = r.frameNumber then st1.framePoints r.frameNumber ++ [st1.nextId]
      else st1.framePoints f
    activeFrames := st1.activeFrames ++ [r.frameNumber]
    tableRows := match env.exportP ⟨r.frameNumber, r.x, r.y⟩ with
      | some row => st1.tableRows ++ [row]
      | none => st1.tableRows }

/-- One iteration of the commit loop (source lines 721-743): skip results
whose frame is missing from the timeline; otherwise remove any pre-existing
point at the frame, insert the newly constructed point, and record it among
addedPoints. -/
def commitOne (env : SessionEnv) (acc : SessionState × List ℕ) (r : TrackingResult) :
    SessionState × List ℕ :=
  if env.frameExists r.frameNumber then
    (commitInsert env (commitTarget acc.1 r) r, acc.2 ++ [(commitTarget acc.1 r).nextId])
  else acc

/-- The identifiers of the points added when committing the results. -/
def commitAdded (env : SessionEnv) (st : SessionState) (results : List TrackingResult) :
    List ℕ :=
  (results.foldl (commitOne env) (st, [])).2

/-- Batch point commit (source lines 718-764): when at least one result was
accumulated, run the commit loop over all results and register exactly one
compound undo/redo action for the whole batch; otherwise do nothing. -/
def commitBatch (env : SessionEnv) (st : SessionState) (results : List TrackingResult) :
    SessionState :=
  if results = [] then st
  else
    let p := results.foldl (commitOne env) (st, [])
    { p.1 with undoStack := p.1.undoStack ++ [⟨p.2⟩] }

/-- The undo closure registered by master.change (source lines 747-752): for
each added point, point.remove(). -/
def runUndo (a : BatchAction) (st : SessionState) : SessionState :=
  a.addedPoints.foldl (fun s id => removePoint id s) st

/-- The redo closure registered by master.change (source lines 753-758): for
each added point, point.unRemove(). -/
def runRedo (a : BatchAction) (st : SessionState) : SessionState :=
  a.addedPoints.foldl (fun s id => unRemovePoint id s) st

/-- The fixed confidence threshold of the consumption loop (source line 682). -/
def confidenceThreshold : ℚ := 1/2

/-- The result-consumption loop (source lines 685-704) as a function of the
item stream the generator produced: progress records update the status text
and continue; the first result below the confidence threshold breaks out of
the loop; every other result is pushed onto the accumulated list.  A stream
cut short by cancellation or an error is simply a shorter input list. -/
def consumeResults : List Item → List TrackingResult
  | [] => []
  | .progress _ _ :: rest => consumeResults rest
  | .result r :: rest =>
    if r.confidence < confidenceThreshold then [] else r :: consumeResults rest

-- ── Configuration validation (source lines 584-601) ──

/-- Outcome of the numeric validation of the submit handler: the first failing
check wins, mirroring the early returns of the source. -/
inductive ValidateOutcome where
  | notNumbers
  | badRange
  | outOfRange
  | ok (startFrame endFrame searchMargin : ℤ)
deriving DecidableEq

/-- Numeric validation exactly as the source performs it: the three parseInt
results must not be NaN (a NaN parse is modelled as none); then
startFrame >= endFrame is rejected; then startFrame < 0 or
endFrame > frameCount is rejected. -/
def validateConfig (frameCount : ℤ) (s? e? m? : Option ℤ) : ValidateOutcome :=
  match s?, e?, m? with
  | some s, some e, some m =>
    if e ≤ s then .badRange
    else if s < 0 ∨ frameCount < e then .outOfRange
    else .ok s e m
  | _, _, _ => .notNumbers

/-- The acceptance condition as the spec words it: all numeric fields parse,
the end frame exceeds the start frame, and both frame indices lie within
[0, frameCount]. -/
def specAcceptsConfig (frameCount : ℤ) (s? e? m? : Option ℤ) : Prop :=
  ∃ s e m, s? = some s ∧ e? = some e ∧ m? = some m ∧
    s < e ∧ 0 ≤ s ∧ s ≤ frameCount ∧ 0 ≤ e ∧ e ≤ frameCount

/-- Number of existing points in the target range (source lines 606-609):
frames startFrame + 1 through endFrame that already carry a point. -/
def existingCount (st : SessionState) (s e : ℤ) : ℕ :=
  ((List.range (e - s).toNat).map fun i => s + 1 + (i : ℤ)).countP
    fun f => (st.trackPoints f).isSome

/-- End-of-session cleanup (source lines 766-781): restore the timeline to the
frame position saved before the run, tear down the detached tracking video,
reset the modal UI, and remove the ROI overlay.  This runs whether or not any
points were committed. -/
def sessionCleanup (originalFrame : ℤ) (st : SessionState) : SessionState :=
  { st with
    currentFrame := originalFrame
    trackingVideoActive := false
    modalOpen := false
    overlayActive := false }

/-- The Running-through-cleanup phases of the submit handler, given the item
stream of the tracking run: consume the stream, commit the accumulated
results as one batch, then clean up.  originalFrame is the playhead position
captured before the run started. -/
def runningPhase (env : SessionEnv) (st : SessionState) (items : List Item) : SessionState :=
  sessionCleanup st.currentFrame (commitBatch env st (consumeResults items))

/-- The whole submit handler after the algorithm check (source lines 584-781):
validation failures return with an alert and no state change; an unconfirmed
overwrite returns with no state change; otherwise the session runs the
tracking stream, commits, and cleans up. -/
def submitSession (env : SessionEnv) (st : SessionState) (frameCount : ℤ)
    (s? e? m? : Option ℤ) (items : List Item) : SessionState :=
  match validateConfig frameCount s? e? m? with
  | .ok s e _ =>
    if 0 < existingCount st s e ∧ ¬ env.confirmOverwrite then st
    else runningPhase env st items
  | _ => st

-- ── Oracle validity ──

/-- Validity of the minMaxLoc oracle: cv.matchTemplate fills a result matrix
of size (searchW - templateW + 1) by (searchH - templateH + 1) whenever the
template fits, and cv.minMaxLoc returns a location inside that matrix. -/
def MatchValid (cv : CVEnv) (tW tH : ℤ) : Prop :=
  ∀ n sx sy sw sh, tW ≤ sw → tH ≤ sh →
    0 ≤ (cv.matchAt n sx sy sw sh).maxLocX ∧
    (cv.matchAt n sx sy sw sh).maxLocX ≤ sw - tW ∧
    0 ≤ (cv.matchAt n sx sy sw sh).maxLocY ∧
    (cv.matchAt n sx sy sw sh).maxLocY ≤ sh - tH

-- ── Concrete instances used to exercise the theorems ──

/-- A 100 by 100 video, frames 0 through 3, optical-flow algorithm. -/
def cfgFlow : TrackingConfig :=
  { videoWidth := 100, videoHeight := 100, roi := ⟨0, 0, 10, 10⟩,
    startFrame := 0, endFrame := 3, algorithm := .opticalFlow, searchMargin := 0 }

/-- Flow oracle that tracks forever, moving the point to (6, 6). -/
def cvTracked : CVEnv :=
  { matchAt := fun _ _ _ _ _ => ⟨0, 0, 1⟩, flowAt := fun _ _ _ => ⟨1, 6, 6⟩ }

/-- Flow oracle that tracks at frame 1 and loses the point at frame 2. -/
def cvLostAt2 : CVEnv :=
  { matchAt := fun _ _ _ _ _ => ⟨0, 0, 1⟩,
    flowAt := fun n _ _ => if n ≤ 1 then ⟨1, 6, 6⟩ else ⟨0, 7, 7⟩ }

/-- A 100 by 100 video, frames 0 through 3, template algorithm, integer ROI
20 by 20 at the origin, search margin minus 50 (the engine never validates
the margin), so the clamped search window cannot contain the template. -/
def cfgShrink : TrackingConfig :=
  { videoWidth := 100, videoHeight := 100, roi := ⟨0, 0, 20, 20⟩,
    startFrame := 0, endFrame := 3, algorithm := .template, searchMargin := -50 }

/-- Match oracle that always reports the top-left corner with full score. -/
def cvCorner : CVEnv :=
  { matchAt := fun _ _ _ _ _ => ⟨0, 0, 1⟩, flowAt := fun _ _ _ => ⟨1, 0, 0⟩ }

/-- A session state with no points, no rows and no undo history. -/
def stEmpty : SessionState :=
  { trackPoints := fun _ => none, framePoints := fun _ => [], pointsById := fun _ => none,
    nextId := 0, activeFrames := [], tableRows := [], undoStack := [], currentFrame := 0,
    modalOpen := true, overlayActive := true, trackingVideoActive := true }

/-- A session environment where every frame exists, exports produce no row,
and overwriting is confirmed. -/
def envAll : SessionEnv :=
  { frameExists := fun _ => true, exportP := fun _ => none, confirmOverwrite := true }

/-- A track state holding one pre-existing point (identifier 0) at frame 11. -/
def stPre : SessionState :=
  { trackPoints := fun f => if f = 11 then some 0 else none
    framePoints := fun f => if f = 11 then [0] else []
    pointsById := fun j => if j = 0 then some ⟨11, 5, 5⟩ else none
    nextId := 1, activeFrames := [11], tableRows := [], undoStack := [], currentFrame := 0,
    modalOpen := true, overlayActive := true, trackingVideoActive := true }

/-- Two accepted tracking results, one overwriting frame 11, one new at 12. -/
def resultsPre : List TrackingResult := [⟨11, 7, 7, 1⟩, ⟨12, 8, 8, 1⟩]

/-- The state after committing resultsPre into stPre. -/
def stAfterCommit : SessionState := commitBatch envAll stPre resultsPre

/-- A mixed stream: two accepted results, then a below-threshold result, then
a result the consumption loop never reaches. -/
def itemsMixed : List Item :=
  [.progress 1 5, .result ⟨11, 1, 2, 9/10⟩, .progress 2 5, .result ⟨12, 3, 4, 3/4⟩,
   .progress 3 5, .result ⟨13, 5, 6, 1/4⟩, .result ⟨14, 7, 8, 1⟩]

/-- A stream whose very first result is below the confidence threshold. -/
def itemsLow : List Item := [.progress 1 5, .result ⟨5, 1, 1, 1/4⟩]

-- ── Small helpers ──

theorem jsRound_coe (z : ℤ) : jsRound (z : ℚ) = z := by
  unfold jsRound
  rw [Int.floor_int_add]
  norm_num

theorem jsRound_eq_int (q : ℚ) (z : ℤ) (h : q = (z : ℚ)) : jsRound q = z := by
  rw [h, jsRound_coe]

-- ── Unfolding lemmas for the two per-frame loops ──

section LoopUnfold

variable {cfg : TrackingConfig} {cv : CVEnv} {signal : Signal}

theorem flowLoop_stop_end {n : ℤ} (h : cfg.endFrame < n) (fuel : ℕ) (pX pY : ℚ) :
    flowLoop cfg cv signal (fuel + 1) n pX pY = [] := by
  rw [flowLoop, if_pos h]

theorem flowLoop_stop_sig {n : ℤ} (h : ¬ cfg.endFrame < n) (hs : signal n = true)
    (fuel : ℕ) (pX pY : ℚ) : flowLoop cfg cv signal (fuel + 1) n pX pY = [] := by
  rw [flowLoop, if_neg h, if_pos hs]

theorem flowLoop_tracked {n : ℤ} {pX pY : ℚ} (h : ¬ cfg.endFrame < n) (hs : signal n = false)
    (ht : (cv.flowAt n pX pY).statusVal = 1) (fuel : ℕ) :
    flowLoop cfg cv signal (fuel + 1) n pX pY =
      .progress (n - cfg.startFrame) (cfg.endFrame - cfg.startFrame) ::
      .result ⟨n, (cv.flowAt n pX pY).newX, (cv.flowAt n pX pY).newY, 1⟩ ::
      flowLoop cfg cv signal fuel (n + 1) (cv.flowAt n pX pY).newX (cv.flowAt n pX pY).newY := by
  rw [flowLoop, if_neg h, if_neg (by rw [hs]; exact Bool.false_ne_true)]
  simp only [ht, if_pos]

theorem flowLoop_lost {n : ℤ} {pX pY : ℚ} (h : ¬ cfg.endFrame < n) (hs : signal n = false)
    (ht : ¬ (cv.flowAt n pX pY).statusVal = 1) (fuel : ℕ) :
    flowLoop cfg cv signal (fuel + 1) n pX pY =
      [.progress (n - cfg.startFrame) (cfg.endFrame - cfg.startFrame),
       .result ⟨n, (cv.flowAt n pX pY).newX, (cv.flowAt n pX pY).newY, 0⟩] := by
  rw [flowLoop, if_neg h, if_neg (by rw [hs]; exact Bool.false_ne_true)]
  simp only [ht, if_neg, if_false]

theorem templateLoop_stop_end {n : ℤ} (h : cfg.endFrame < n) (fuel : ℕ) (cX cY : ℚ) :
    templateLoop cfg cv signal (fuel + 1) n cX cY = [] := by
  rw [templateLoop, if_pos h]

theorem templateLoop_stop_sig {n : ℤ} (h : ¬ cfg.endFrame < n) (hs : signal n = true)
    (fuel : ℕ) (cX cY : ℚ) : templateLoop cfg cv signal (fuel + 1) n cX cY = [] := by
  rw [templateLoop, if_neg h, if_pos hs]

theorem templateLoop_lost {n : ℤ} {cX cY : ℚ} (h : ¬ cfg.endFrame < n)
    (hs : signal n = false)
    (hfit : searchW cfg cX < templateW cfg ∨ searchH cfg cY < templateH cfg) (fuel : ℕ) :
    templateLoop cfg cv signal (fuel + 1) n cX cY =
      [.progress (n - cfg.startFrame) (cfg.endFrame - cfg.startFrame),
       .result ⟨n, cX, cY, 0⟩] := by
  rw [templateLoop, if_neg h, if_neg (by rw [hs]; exact Bool.false_ne_true)]
  simp only [hfit, if_pos]

theorem templateLoop_step {n : ℤ} {cX cY : ℚ} (h : ¬ cfg.endFrame < n)
    (hs : signal n = false)
    (hfit : ¬ (searchW cfg cX < templateW cfg ∨ searchH cfg cY < templateH cfg)) (fuel : ℕ) :
    templateLoop cfg cv signal (fuel + 1) n cX cY =
      .progress (n - cfg.startFrame) (cfg.endFrame - cfg.startFrame) ::
      .result ⟨n, nextCenterX cfg cv n cX cY, nextCenterY cfg cv n cX cY,
        (stepMatch cfg cv n cX cY).maxVal⟩ ::
      templateLoop cfg cv signal fuel (n + 1)
        (nextCenterX cfg cv n cX cY) (nextCenterY cfg cv n cX cY) := by
  rw [templateLoop, if_neg h, if_neg (by rw [hs]; exact Bool.false_ne_true)]
  simp only [hfit, if_neg, if_false]

end LoopUnfold

-- ── Fuel adequacy: any fuel at least the remaining iteration count gives the
-- same run, so the fuel encoding of the source loops is faithful ──

section FuelEq

variable {cfg : TrackingConfig} {cv : CVEnv} {signal : Signal}

theorem templateLoop_fuel_eq : ∀ (fuel fuel' : ℕ) (n : ℤ) (cX cY : ℚ),
    (cfg.endFrame + 1 - n).toNat ≤ fuel → (cfg.endFrame + 1 - n).toNat ≤ fuel' →
    templateLoop cfg cv signal fuel n cX cY = templateLoop cfg cv signal fuel' n cX cY := by
  intro fuel
  induction fuel with
  | zero =>
    intro fuel' n cX cY h h'
    have h1 : cfg.endFrame < n := by omega
    cases fuel' with
    | zero => rfl
    | succ m =>
      rw [templateLoop_stop_end h1]
      rfl
  | succ fuel ih =>
    intro fuel' n cX cY h h'
    cases fuel' with
    | zero =>
      have h1 : cfg.endFrame < n := by omega
      rw [templateLoop_stop_end h1]
      rfl
    | succ m =>
      by_cases h1 : cfg.endFrame < n
      · rw [templateLoop_stop_end h1, templateLoop_stop_end h1]
      · cases hs : signal n with
        | true => rw [templateLoop_stop_sig h1 hs, templateLoop_stop_sig h1 hs]
        | false =>
          by_cases hfit : searchW cfg cX < templateW cfg ∨ searchH cfg cY < templateH cfg
          · rw [templateLoop_lost h1 hs hfit, templateLoop_lost h1 hs hfit]
          · rw [templateLoop_step h1 hs hfit, templateLoop_step h1 hs hfit,
              ih m (n + 1) _ _ (by omega) (by omega)]

theorem flowLoop_fuel_eq : ∀ (fuel fuel' : ℕ) (n : ℤ) (pX pY : ℚ),
    (cfg.endFrame + 1 - n).toNat ≤ fuel → (cfg.endFrame + 1 - n).toNat ≤ fuel' →
    flowLoop cfg cv signal fuel n pX pY = flowLoop cfg cv signal fuel' n pX pY := by
  intro fuel
  induction fuel with
  | zero =>
    intro fuel' n pX pY h h'
    have h1 : cfg.endFrame < n := by omega
    cases fuel' with
    | zero => rfl
    | succ m =>
      rw [flowLoop_stop_end h1]
      rfl
  | succ fuel ih =>
    intro fuel' n pX pY h h'
    cases fuel' with
    | zero =>
      have h1 : cfg.endFrame < n := by omega
      rw [flowLoop_stop_end h1]
      rfl
    | succ m =>
      by_cases h1 : cfg.endFrame < n
      · rw [flowLoop_stop_end h1, flowLoop_stop_end h1]
      · cases hs : signal n with
        | true => rw [flowLoop_stop_sig h1 hs, flowLoop_stop_sig h1 hs]
        | false =>
          by_cases ht : (cv.flowAt n pX pY).statusVal = 1
          · rw [flowLoop_tracked h1 hs ht, flowLoop_tracked h1 hs ht,
              ih m (n + 1) _ _ (by omega) (by omega)]
          · rw [flowLoop_lost h1 hs ht, flowLoop_lost h1 hs ht]

end FuelEq

-- ── C7: seekToFrame tolerance and timeout ──

/-- C7: seekToFrame resolves immediately without triggering a seek exactly
when the current playback position is within 0.001 s of the target;
otherwise it assigns the playback position and resolves exactly when the
seeked event fires within the 5000 ms timeout, rejecting with the seek
timeout error otherwise. -/
theorem c7_seek_behavior (current time : ℚ) (seekDelay : Option ℚ) :
    (seekToFrame current time seekDelay = (.resolvedNoSeek, none) ↔
      |current - time| < 1/1000)
    ∧ (¬ |current - time| < 1/1000 →
        (seekToFrame current time seekDelay).2 = some time
        ∧ ((seekToFrame current time seekDelay).1 = .resolvedSeeked ↔
            ∃ d, seekDelay = some d ∧ d < 5000)
        ∧ ((seekToFrame current time seekDelay).1 = .timeoutError ↔
            ∀ d, seekDelay = some d → 5000 ≤ d)) := by
  by_cases h : |current - time| < 1/1000
  · refine ⟨⟨fun _ => h, fun _ => ?_⟩, fun hc => absurd h hc⟩
    unfold seekToFrame
    rw [if_pos h]
  · cases seekDelay with
    | none =>
      have hst : seekToFrame current time none = (.timeoutError, some time) := by
        unfold seekToFrame
        rw [if_neg h]
      rw [hst]
      refine ⟨⟨fun hEq => by simp at hEq, fun hc => absurd hc h⟩,
        fun _ => ⟨rfl, by simp, by simp⟩⟩
    | some d =>
      by_cases hd : d < 5000
      · have hst : seekToFrame current time (some d) = (.resolvedSeeked, some time) := by
          unfold seekToFrame
          rw [if_neg h]
          show (if d < 5000 then ((SeekOutcome.resolvedSeeked : SeekOutcome), some time)
            else (SeekOutcome.timeoutError, some time)) = _
          rw [if_pos hd]
        rw [hst]
        refine ⟨⟨fun hEq => by simp at hEq, fun hc => absurd hc h⟩,
          fun _ => ⟨rfl, ⟨fun _ => ⟨d, rfl, hd⟩, fun _ => rfl⟩, ⟨fun hEq => by simp at hEq,
            fun hall => absurd hd (not_lt.mpr (hall d rfl))⟩⟩⟩
      · have hst : seekToFrame current time (some d) = (.timeoutError, some time) := by
          unfold seekToFrame
          rw [if_neg h]
          show (if d < 5000 then ((SeekOutcome.resolvedSeeked : SeekOutcome), some time)
            else (SeekOutcome.timeoutError, some time)) = _
          rw [if_neg hd]
        rw [hst]
        refine ⟨⟨fun hEq => by simp at hEq, fun hc => absurd hc h⟩,
          fun _ => ⟨rfl, ⟨fun hEq => by simp at hEq, ?_⟩,
            ⟨fun _ d' hd' => ?_, fun _ => rfl⟩⟩⟩
        · rintro ⟨d', hd', hlt⟩
          cases hd'
          exact absurd hlt hd
        · cases hd'
          exact not_lt.mp hd

/-- C7 witness: with the playhead 2 s away from the target and no seeked
event, the call triggers a seek and fails with the timeout error. -/
theorem c7_seek_behavior_witness :
    (seekToFrame 5 7 none).2 = some 7 ∧ (seekToFrame 5 7 none).1 = .timeoutError := by
  have h := (c7_seek_behavior 5 7 none).2 (by norm_num)
  exact ⟨h.1, h.2.2.mpr (by simp)⟩

-- ── C8: configuration validation ──

/-- C8: the numeric validation of the submit handler accepts exactly the
inputs the spec describes — all three fields parse, the end frame strictly
exceeds the start frame, and both frame indices lie within [0, frameCount] —
and any violation leaves the session state untouched (the handler returns to
the configuring state with an alert and no side effects). -/
theorem c8_validation_equiv (frameCount : ℤ) (s? e? m? : Option ℤ) :
    ((∃ s e m, validateConfig frameCount s? e? m? = .ok s e m) ↔
      specAcceptsConfig frameCount s? e? m?)
    ∧ (∀ env st items, (∀ s e m, validateConfig frameCount s? e? m? ≠ .ok s e m) →
        submitSession env st frameCount s? e? m? items = st) := by
  constructor
  · unfold specAcceptsConfig
    cases s? with
    | none => simp [validateConfig]
    | some s =>
      cases e? with
      | none => cases m? <;> simp [validateConfig]
      | some e =>
        cases m? with
        | none => simp [validateConfig]
        | some m =>
          simp only [validateConfig, Option.some.injEq]
          constructor
          · rintro ⟨s', e', m', h⟩
            by_cases h1 : e ≤ s
            · rw [if_pos h1] at h
              cases h
            · rw [if_neg h1] at h
              by_cases h2 : s < 0 ∨ frameCount < e
              · rw [if_pos h2] at h
                cases h
              · push_neg at h1 h2
                exact ⟨s, e, m, rfl, rfl, rfl, by omega, by omega, by omega, by omega, by omega⟩
          · rintro ⟨s', e', m', hs, he, hm, hlt, hs0, hsf, he0, hef⟩
            subst hs
            subst he
            subst hm
            exact ⟨s, e, m, by rw [if_neg (by omega), if_neg (by omega)]⟩
  · intro env st items hne
    unfold submitSession
    cases hv : validateConfig frameCount s? e? m? with
    | ok s e m => exact absurd hv (hne s e m)
    | notNumbers => rfl
    | badRange => rfl
    | outOfRange => rfl

-- ── C5: optical-flow confidence values ──

section FlowConf

variable {cfg : TrackingConfig} {cv : CVEnv} {signal : Signal}

theorem flow_conf_mem : ∀ (fuel : ℕ) (n : ℤ) (pX pY : ℚ) (r : TrackingResult),
    Item.result r ∈ flowLoop cfg cv signal fuel n pX pY →
    r.confidence = 0 ∨ r.confidence = 1 := by
  intro fuel
  induction fuel with
  | zero =>
    intro n pX pY r h
    rw [show flowLoop cfg cv signal 0 n pX pY = [] from rfl] at h
    cases h
  | succ fuel ih =>
    intro n pX pY r h
    by_cases h1 : cfg.endFrame < n
    · rw [flowLoop_stop_end h1] at h
      cases h
    · cases hs : signal n with
      | true =>
        rw [flowLoop_stop_sig h1 hs] at h
        cases h
      | false =>
        by_cases ht : (cv.flowAt n pX pY).statusVal = 1
        · rw [flowLoop_tracked h1 hs ht] at h
          simp only [List.mem_cons] at h
          rcases h with h | h | h
          · cases h
          · right
            rw [show r = (⟨n, (cv.flowAt n pX pY).newX, (cv.flowAt n pX pY).newY, 1⟩ :
                TrackingResult) from by injection h]
          · exact ih _ _ _ r h
        · rw [flowLoop_lost h1 hs ht] at h
          simp only [List.mem_cons, List.not_mem_nil, or_false] at h
          rcases h with h | h
          · cases h
          · left
            rw [show r = (⟨n, (cv.flowAt n pX pY).newX, (cv.flowAt n pX pY).newY, 0⟩ :
                TrackingResult) from by injection h]

theorem flow_zero_last : ∀ (fuel : ℕ) (n : ℤ) (pX pY : ℚ) (r : TrackingResult),
    Item.result r ∈ flowLoop cfg cv signal fuel n pX pY → r.confidence = 0 →
    (flowLoop cfg cv signal fuel n pX pY).getLast? = some (.result r) := by
  intro fuel
  induction fuel with
  | zero =>
    intro n pX pY r h
    rw [show flowLoop cfg cv signal 0 n pX pY = [] from rfl] at h
    cases h
  | succ fuel ih =>
    intro n pX pY r h hzero
    by_cases h1 : cfg.endFrame < n
    · rw [flowLoop_stop_end h1] at h
      cases h
    · cases hs : signal n with
      | true =>
        rw [flowLoop_stop_sig h1 hs] at h
        cases h
      | false =>
        by_cases ht : (cv.flowAt n pX pY).statusVal = 1
        · rw [flowLoop_tracked h1 hs ht] at h ⊢
          simp only [List.mem_cons] at h
          rcases h with h | h | h
          · cases h
          · exfalso
            have : r.confidence = 1 := by
              rw [show r = (⟨n, (cv.flowAt n pX pY).newX, (cv.flowAt n pX pY).newY, 1⟩ :
                  TrackingResult) from by injection h]
            rw [hzero] at this
            norm_num at this
          · cases hrest : flowLoop cfg cv signal fuel (n + 1)
                (cv.flowAt n pX pY).newX (cv.flowAt n pX pY).newY with
            | nil =>
              rw [hrest] at h
              cases h
            | cons a l =>
              have := ih _ _ _ r h hzero
              rw [hrest] at this
              rw [List.getLast?_cons_cons, List.getLast?_cons_cons]
              exact this
        · rw [flowLoop_lost h1 hs ht] at h ⊢
          simp only [List.mem_cons, List.not_mem_nil, or_false] at h
          rcases h with h | h
          · cases h
          · rw [show Item.result r =
              Item.result ⟨n, (cv.flowAt n pX pY).newX, (cv.flowAt n pX pY).newY, 0⟩ from h]
            rfl

end FlowConf

/-- C5: the optical-flow tracker only emits confidences 0 and 1: every
yielded result has confidence exactly 0 or exactly 1; when the status flag
reports tracked the loop yields a confidence-1 result at the new position and
carries the new point forward as previous state; when it reports lost the
loop yields exactly one final confidence-0 result at the newly computed
position and terminates; and a confidence-0 result is always the last yielded
item of the run. -/
theorem c5_flow_confidence (cfg : TrackingConfig) (cv : CVEnv) (signal : Signal) :
    (∀ r : TrackingResult, Item.result r ∈ opticalFlowTrack cfg cv signal →
      r.confidence = 0 ∨ r.confidence = 1)
    ∧ (∀ (fuel : ℕ) (n : ℤ) (pX pY : ℚ), ¬ cfg.endFrame < n → signal n = false →
        (cv.flowAt n pX pY).statusVal = 1 →
        flowLoop cfg cv signal (fuel + 1) n pX pY =
          .progress (n - cfg.startFrame) (cfg.endFrame - cfg.startFrame) ::
          .result ⟨n, (cv.flowAt n pX pY).newX, (cv.flowAt n pX pY).newY, 1⟩ ::
          flowLoop cfg cv signal fuel (n + 1) (cv.flowAt n pX pY).newX (cv.flowAt n pX pY).newY)
    ∧ (∀ (fuel : ℕ) (n : ℤ) (pX pY : ℚ), ¬ cfg.endFrame < n → signal n = false →
        ¬ (cv.flowAt n pX pY).statusVal = 1 →
        flowLoop cfg cv signal (fuel + 1) n pX pY =
          [.progress (n - cfg.startFrame) (cfg.endFrame - cfg.startFrame),
           .result ⟨n, (cv.flowAt n pX pY).newX, (cv.flowAt n pX pY).newY, 0⟩])
    ∧ (∀ r : TrackingResult, Item.result r ∈ opticalFlowTrack cfg cv signal →
        r.confidence = 0 →
        (opticalFlowTrack cfg cv signal).getLast? = some (.result r)) := by
  refine ⟨fun r h => flow_conf_mem _ _ _ _ r h,
    fun fuel n pX pY h1 hs ht => flowLoop_tracked h1 hs ht fuel,
    fun fuel n pX pY h1 hs ht => flowLoop_lost h1 hs ht fuel,
    fun r h hz => flow_zero_last _ _ _ _ r h hz⟩

/-- C5 witness: a concrete environment whose status flag reports tracked at
frame 1 and lost at frame 2: the step equations instantiate as the theorem
states, and the confidence-0 result yielded at frame 2 is the last item of
the run. -/
theorem c5_flow_confidence_witness :
    flowLoop cfgFlow cvLostAt2 (fun _ => false) (1 + 1) 1 5 5 =
      .progress (1 - cfgFlow.startFrame) (cfgFlow.endFrame - cfgFlow.startFrame) ::
      .result ⟨1, (cvLostAt2.flowAt 1 5 5).newX, (cvLostAt2.flowAt 1 5 5).newY, 1⟩ ::
      flowLoop cfgFlow cvLostAt2 (fun _ => false) 1 (1 + 1)
        (cvLostAt2.flowAt 1 5 5).newX (cvLostAt2.flowAt 1 5 5).newY
    ∧ flowLoop cfgFlow cvLostAt2 (fun _ => false) (0 + 1) 2 6 6 =
      [.progress (2 - cfgFlow.startFrame) (cfgFlow.endFrame - cfgFlow.startFrame),
       .result ⟨2, (cvLostAt2.flowAt 2 6 6).newX, (cvLostAt2.flowAt 2 6 6).newY, 0⟩]
    ∧ ((⟨2, 7, 7, 0⟩ : TrackingResult).confidence = 0 ∨
        (⟨2, 7, 7, 0⟩ : TrackingResult).confidence = 1)
    ∧ (opticalFlowTrack cfgFlow cvLostAt2 (fun _ => false)).getLast? =
        some (.result ⟨2, 7, 7, 0⟩) := by
  refine ⟨(c5_flow_confidence cfgFlow cvLostAt2 (fun _ => false)).2.1 1 1 5 5
      (by decide) rfl (by decide),
    (c5_flow_confidence cfgFlow cvLostAt2 (fun _ => false)).2.2.1 0 2 6 6
      (by decide) rfl (by decide),
    (c5_flow_confidence cfgFlow cvLostAt2 (fun _ => false)).1 ⟨2, 7, 7, 0⟩ (by decide),
    (c5_flow_confidence cfgFlow cvLostAt2 (fun _ => false)).2.2.2 ⟨2, 7, 7, 0⟩
      (by decide) (by decide)⟩

-- ── Shape of a run: a progress/result block per consecutive frame ──

section Shape

variable {cfg : TrackingConfig} {cv : CVEnv} {signal : Signal}

theorem runSkel_mem : ∀ (k : ℕ) (n : ℤ) (p : Bool × ℤ), p ∈ runSkel n k →
    n ≤ p.2 ∧ p.2 < n + k := by
  intro k
  induction k with
  | zero =>
    intro n p h
    cases h
  | succ k ih =>
    intro n p h
    simp only [runSkel, List.mem_cons] at h
    rcases h with rfl | rfl | h
    · exact ⟨le_refl n, by omega⟩
    · exact ⟨le_refl n, by omega⟩
    · have := ih (n + 1) p h
      omega

theorem runSkel_pairwise : ∀ (k : ℕ) (n : ℤ),
    (runSkel n k).Pairwise (fun a b : Bool × ℤ =>
      a.2 < b.2 ∨ (a.2 = b.2 ∧ a.1 = false ∧ b.1 = true)) := by
  intro k
  induction k with
  | zero =>
    intro n
    exact List.Pairwise.nil
  | succ k ih =>
    intro n
    rw [runSkel]
    refine List.Pairwise.cons ?_ (List.Pairwise.cons ?_ (ih (n + 1)))
    · intro b hb
      rcases List.mem_cons.mp hb with rfl | hb
      · exact Or.inr ⟨rfl, rfl, rfl⟩
      · have := runSkel_mem k (n + 1) b hb
        exact Or.inl (by omega)
    · intro b hb
      have := runSkel_mem k (n + 1) b hb
      exact Or.inl (by omega)

theorem templateLoop_shape : ∀ (fuel : ℕ) (n : ℤ) (cX cY : ℚ),
    ∃ k : ℕ, (templateLoop cfg cv signal fuel n cX cY).map (skel cfg.startFrame) = runSkel n k
      ∧ (k = 0 ∨ n + (k : ℤ) ≤ cfg.endFrame + 1) := by
  intro fuel
  induction fuel with
  | zero =>
    intro n cX cY
    exact ⟨0, rfl, Or.inl rfl⟩
  | succ fuel ih =>
    intro n cX cY
    by_cases h1 : cfg.endFrame < n
    · exact ⟨0, by rw [templateLoop_stop_end h1]; rfl, Or.inl rfl⟩
    · cases hs : signal n with
      | true => exact ⟨0, by rw [templateLoop_stop_sig h1 hs]; rfl, Or.inl rfl⟩
      | false =>
        by_cases hfit : searchW cfg cX < templateW cfg ∨ searchH cfg cY < templateH cfg
        · refine ⟨1, ?_, Or.inr (by omega)⟩
          rw [templateLoop_lost h1 hs hfit]
          simp only [List.map_cons, List.map_nil, runSkel, skel, isRes, pertFrame]
          rw [show cfg.startFrame + (n - cfg.startFrame) = n by omega]
        · obtain ⟨k, hmap, hb⟩ := ih (n + 1)
            (nextCenterX cfg cv n cX cY) (nextCenterY cfg cv n cX cY)
          refine ⟨k + 1, ?_, Or.inr ?_⟩
          · rw [templateLoop_step h1 hs hfit]
            simp only [List.map_cons, runSkel, skel, isRes, pertFrame]
            rw [show cfg.startFrame + (n - cfg.startFrame) = n by omega]
            rw [hmap]
          · rcases hb with rfl | hb
            · omega
            · omega

theorem flowLoop_shape : ∀ (fuel : ℕ) (n : ℤ) (pX pY : ℚ),
    ∃ k : ℕ, (flowLoop cfg cv signal fuel n pX pY).map (skel cfg.startFrame) = runSkel n k
      ∧ (k = 0 ∨ n + (k : ℤ) ≤ cfg.endFrame + 1) := by
  intro fuel
  induction fuel with
  | zero =>
    intro n pX pY
    exact ⟨0, rfl, Or.inl rfl⟩
  | succ fuel ih =>
    intro n pX pY
    by_cases h1 : cfg.endFrame < n
    · exact ⟨0, by rw [flowLoop_stop_end h1]; rfl, Or.inl rfl⟩
    · cases hs : signal n with
      | true => exact ⟨0, by rw [flowLoop_stop_sig h1 hs]; rfl, Or.inl rfl⟩
      | false =>
        by_cases ht : (cv.flowAt n pX pY).statusVal = 1
        · obtain ⟨k, hmap, hb⟩ := ih (n + 1)
            (cv.flowAt n pX pY).newX (cv.flowAt n pX pY).newY
          refine ⟨k + 1, ?_, Or.inr ?_⟩
          · rw [flowLoop_tracked h1 hs ht]
            simp only [List.map_cons, runSkel, skel, isRes, pertFrame]
            rw [show cfg.startFrame + (n - cfg.startFrame) = n by omega]
            rw [hmap]
          · rcases hb with rfl | hb
            · omega
            · omega
        · refine ⟨1, ?_, Or.inr (by omega)⟩
          rw [flowLoop_lost h1 hs ht]
          simp only [List.map_cons, List.map_nil, runSkel, skel, isRes, pertFrame]
          rw [show cfg.startFrame + (n - cfg.startFrame) = n by omega]

theorem trackObject_shape (cfgv : TrackingConfig) (cvv : CVEnv) (sg : Signal) :
    ∃ k : ℕ, (trackObject cfgv cvv sg).map (skel cfgv.startFrame) =
      runSkel (cfgv.startFrame + 1) k
      ∧ (k = 0 ∨ cfgv.startFrame + 1 + (k : ℤ) ≤ cfgv.endFrame + 1) := by
  unfold trackObject
  by_cases halg : cfgv.algorithm = .opticalFlow
  · rw [if_pos halg]
    unfold opticalFlowTrack
    exact flowLoop_shape _ _ _ _
  · rw [if_neg halg]
    unfold templateMatchTrack
    exact templateLoop_shape _ _ _ _

end Shape

-- ── C2: frame ordering of the yielded stream ──

/-- C2: for every configuration with startFrame < endFrame and either
algorithm, the yielded stream consists of per-frame blocks — a progress
record followed by that frame's result — for consecutive frames starting at
startFrame + 1; consequently the frames the items pertain to are ordered
(strictly increasing among results, strictly increasing among progress
records, with each progress record preceding its frame's result) and all lie
in the half-open range from startFrame exclusive to endFrame inclusive. -/
theorem c2_frame_ordering (cfg : TrackingConfig) (cv : CVEnv) (signal : Signal)
    (hvalid : cfg.startFrame < cfg.endFrame) :
    (∃ k : ℕ, (trackObject cfg cv signal).map (skel cfg.startFrame) =
        runSkel (cfg.startFrame + 1) k ∧ (k : ℤ) ≤ cfg.endFrame - cfg.startFrame)
    ∧ (trackObject cfg cv signal).Pairwise (fun a b =>
        pertFrame cfg.startFrame a < pertFrame cfg.startFrame b ∨
        (pertFrame cfg.startFrame a = pertFrame cfg.startFrame b ∧
          isRes a = false ∧ isRes b = true))
    ∧ (∀ it ∈ trackObject cfg cv signal,
        cfg.startFrame < pertFrame cfg.startFrame it ∧
        pertFrame cfg.startFrame it ≤ cfg.endFrame) := by
  obtain ⟨k, hmap, hb⟩ := trackObject_shape cfg cv signal
  have hkb : (k : ℤ) ≤ cfg.endFrame - cfg.startFrame := by
    rcases hb with rfl | hb
    · omega
    · omega
  refine ⟨⟨k, hmap, hkb⟩, ?_, ?_⟩
  · have hp : ((trackObject cfg cv signal).map (skel cfg.startFrame)).Pairwise
        (fun a b : Bool × ℤ => a.2 < b.2 ∨ (a.2 = b.2 ∧ a.1 = false ∧ b.1 = true)) := by
      rw [hmap]
      exact runSkel_pairwise k (cfg.startFrame + 1)
    exact List.pairwise_map.mp hp
  · intro it hit
    have hm : skel cfg.startFrame it ∈
        (trackObject cfg cv signal).map (skel cfg.startFrame) :=
      List.mem_map_of_mem _ hit
    rw [hmap] at hm
    have := runSkel_mem k (cfg.startFrame + 1) _ hm
    have hpe : (skel cfg.startFrame it).2 = pertFrame cfg.startFrame it := rfl
    exact ⟨by omega, by omega⟩

/-- C2 witness: the full optical-flow run over frames 1 through 3 instantiates
the ordering statement. -/
theorem c2_frame_ordering_witness :
    (∃ k : ℕ, (trackObject cfgFlow cvTracked (fun _ => false)).map (skel cfgFlow.startFrame) =
        runSkel (cfgFlow.startFrame + 1) k ∧ (k : ℤ) ≤ cfgFlow.endFrame - cfgFlow.startFrame)
    ∧ (trackObject cfgFlow cvTracked (fun _ => false)).Pairwise (fun a b =>
        pertFrame cfgFlow.startFrame a < pertFrame cfgFlow.startFrame b ∨
        (pertFrame cfgFlow.startFrame a = pertFrame cfgFlow.startFrame b ∧
          isRes a = false ∧ isRes b = true))
    ∧ (∀ it ∈ trackObject cfgFlow cvTracked (fun _ => false),
        cfgFlow.startFrame < pertFrame cfgFlow.startFrame it ∧
        pertFrame cfgFlow.startFrame it ≤ cfgFlow.endFrame) :=
  c2_frame_ordering cfgFlow cvTracked (fun _ => false) (by decide)

-- ── Results of an item list ──

theorem resultsOf_nil : resultsOf [] = [] := rfl

theorem resultsOf_cons_prog (f t : ℤ) (l : List Item) :
    resultsOf (.progress f t :: l) = resultsOf l := by
  simp [resultsOf]

theorem resultsOf_cons_res (r : TrackingResult) (l : List Item) :
    resultsOf (.result r :: l) = r :: resultsOf l := by
  simp [resultsOf]

-- ── C6: cancellation between frames K and K + 1 ──

section Cancel

variable {cfg : TrackingConfig} {cv : CVEnv}

theorem template_cancel_aux {K : ℤ} {signal : Signal}
    (hsig : ∀ n, signal n = true ↔ K < n) :
    ∀ (fuel : ℕ) (n : ℤ) (cX cY : ℚ), n ≤ K + 1 →
    (K + 1 - n).toNat ≤
      (resultsOf (templateLoop cfg cv (fun _ => false) fuel n cX cY)).length →
    (resultsOf (templateLoop cfg cv signal fuel n cX cY)).length = (K + 1 - n).toNat
    ∧ ∀ it ∈ templateLoop cfg cv signal fuel n cX cY,
        pertFrame cfg.startFrame it ≤ K := by
  intro fuel
  induction fuel with
  | zero =>
    intro n cX cY hn hK
    rw [show templateLoop cfg cv (fun _ => false) 0 n cX cY = [] from rfl,
      resultsOf_nil] at hK
    refine ⟨?_, ?_⟩
    · rw [show templateLoop cfg cv signal 0 n cX cY = [] from rfl, resultsOf_nil]
      simp only [List.length_nil] at hK ⊢
      omega
    · intro it hit
      rw [show templateLoop cfg cv signal 0 n cX cY = [] from rfl] at hit
      cases hit
  | succ fuel ih =>
    intro n cX cY hn hK
    by_cases h1 : cfg.endFrame < n
    · rw [templateLoop_stop_end h1, resultsOf_nil] at hK
      refine ⟨?_, ?_⟩
      · rw [templateLoop_stop_end h1, resultsOf_nil]
        simp only [List.length_nil] at hK ⊢
        omega
      · intro it hit
        rw [templateLoop_stop_end h1] at hit
        cases hit
    · by_cases hKn : K < n
      · have hst : signal n = true := (hsig n).mpr hKn
        refine ⟨?_, ?_⟩
        · rw [templateLoop_stop_sig h1 hst, resultsOf_nil]
          simp only [List.length_nil]
          omega
        · intro it hit
          rw [templateLoop_stop_sig h1 hst] at hit
          cases hit
      · have hsf : signal n = false := by
          cases h : signal n
          · rfl
          · exact absurd ((hsig n).mp h) hKn
        by_cases hfit : searchW cfg cX < templateW cfg ∨ searchH cfg cY < templateH cfg
        · rw [templateLoop_lost h1 rfl hfit, resultsOf_cons_prog, resultsOf_cons_res,
            resultsOf_nil] at hK
          simp only [List.length_cons, List.length_nil] at hK
          have hKeq : K = n := by omega
          refine ⟨?_, ?_⟩
          · rw [templateLoop_lost h1 hsf hfit, resultsOf_cons_prog, resultsOf_cons_res,
              resultsOf_nil]
            simp only [List.length_cons, List.length_nil]
            omega
          · intro it hit
            rw [templateLoop_lost h1 hsf hfit] at hit
            simp only [List.mem_cons, List.not_mem_nil, or_false] at hit
            rcases hit with rfl | rfl
            · simp only [pertFrame]
              omega
            · simp only [pertFrame]
              omega
        · rw [templateLoop_step h1 rfl hfit, resultsOf_cons_prog, resultsOf_cons_res] at hK
          simp only [List.length_cons] at hK
          have hK' : (K + 1 - (n + 1)).toNat ≤
              (resultsOf (templateLoop cfg cv (fun _ => false) fuel (n + 1)
                (nextCenterX cfg cv n cX cY) (nextCenterY cfg cv n cX cY))).length := by
            omega
          obtain ⟨hlen, hmem⟩ := ih (n + 1) (nextCenterX cfg cv n cX cY)
            (nextCenterY cfg cv n cX cY) (by omega) hK'
          refine ⟨?_, ?_⟩
          · rw [templateLoop_step h1 hsf hfit, resultsOf_cons_prog, resultsOf_cons_res]
            simp only [List.length_cons]
            omega
          · intro it hit
            rw [templateLoop_step h1 hsf hfit] at hit
            simp only [List.mem_cons] at hit
            rcases hit with rfl | rfl | hit
            · simp only [pertFrame]
              omega
            · simp only [pertFrame]
              omega
            · exact hmem it hit

theorem flow_cancel_aux {K : ℤ} {signal : Signal}
    (hsig : ∀ n, signal n = true ↔ K < n) :
    ∀ (fuel : ℕ) (n : ℤ) (pX pY : ℚ), n ≤ K + 1 →
    (K + 1 - n).toNat ≤
      (resultsOf (flowLoop cfg cv (fun _ => false) fuel n pX pY)).length →
    (resultsOf (flowLoop cfg cv signal fuel n pX pY)).length = (K + 1 - n).toNat
    ∧ ∀ it ∈ flowLoop cfg cv signal fuel n pX pY,
        pertFrame cfg.startFrame it ≤ K := by
  intro fuel
  induction fuel with
  | zero =>
    intro n pX pY hn hK
    rw [show flowLoop cfg cv (fun _ => false) 0 n pX pY = [] from rfl,
      resultsOf_nil] at hK
    refine ⟨?_, ?_⟩
    · rw [show flowLoop cfg cv signal 0 n pX pY = [] from rfl, resultsOf_nil]
      simp only [List.length_nil] at hK ⊢
      omega
    · intro it hit
      rw [show flowLoop cfg cv signal 0 n pX pY = [] from rfl] at hit
      cases hit
  | succ fuel ih =>
    intro n pX pY hn hK
    by_cases h1 : cfg.endFrame < n
    · rw [flowLoop_stop_end h1, resultsOf_nil] at hK
      refine ⟨?_, ?_⟩
      · rw [flowLoop_stop_end h1, resultsOf_nil]
        simp only [List.length_nil] at hK ⊢
        omega
      · intro it hit
        rw [flowLoop_stop_end h1] at hit
        cases hit
    · by_cases hKn : K < n
      · have hst : signal n = true := (hsig n).mpr hKn
        refine ⟨?_, ?_⟩
        · rw [flowLoop_stop_sig h1 hst, resultsOf_nil]
          simp only [List.length_nil]
          omega
        · intro it hit
          rw [flowLoop_stop_sig h1 hst] at hit
          cases hit
      · have hsf : signal n = false := by
          cases h : signal n
          · rfl
          · exact absurd ((hsig n).mp h) hKn
        by_cases ht : (cv.flowAt n pX pY).statusVal = 1
        · rw [flowLoop_tracked h1 rfl ht, resultsOf_cons_prog, resultsOf_cons_res] at hK
          simp only [List.length_cons] at hK
          have hK' : (K + 1 - (n + 1)).toNat ≤
              (resultsOf (flowLoop cfg cv (fun _ => false) fuel (n + 1)
                (cv.flowAt n pX pY).newX (cv.flowAt n pX pY).newY)).length := by
            omega
          obtain ⟨hlen, hmem⟩ := ih (n + 1) (cv.flowAt n pX pY).newX
            (cv.flowAt n pX pY).newY (by omega) hK'
          refine ⟨?_, ?_⟩
          · rw [flowLoop_tracked h1 hsf ht, resultsOf_cons_prog, resultsOf_cons_res]
            simp only [List.length_cons]
            omega
          · intro it hit
            rw [flowLoop_tracked h1 hsf ht] at hit
            simp only [List.mem_cons] at hit
            rcases hit with rfl | rfl | hit
            · simp only [pertFrame]
              omega
            · simp only [pertFrame]
              omega
            · exact hmem it hit
        · rw [flowLoop_lost h1 rfl ht, resultsOf_cons_prog, resultsOf_cons_res,
            resultsOf_nil] at hK
          simp only [List.length_cons, List.length_nil] at hK
          have hKeq : K = n := by omega
          refine ⟨?_, ?_⟩
          · rw [flowLoop_lost h1 hsf ht, resultsOf_cons_prog, resultsOf_cons_res,
              resultsOf_nil]
            simp only [List.length_cons, List.length_nil]
            omega
          · intro it hit
            rw [flowLoop_lost h1 hsf ht] at hit
            simp only [List.mem_cons, List.not_mem_nil, or_false] at hit
            rcases hit with rfl | rfl
            · simp only [pertFrame]
              omega
            · simp only [pertFrame]
              omega

end Cancel

/-- C6: cancellation is observed once per frame at the top of each tracker's
loop.  For either algorithm, if the abort signal is exactly the signal that
becomes set after frame K completes and before frame K + 1 begins (false for
every check at frames up to K, true from K + 1 on), and the uncancelled run
would yield at least K - startFrame results (it completes frame K), then the
cancelled run yields exactly K - startFrame tracking results and nothing it
yields pertains to a frame beyond K. -/
theorem c6_cancellation_count (cfg : TrackingConfig) (cv : CVEnv) (K : ℤ)
    (signal : Signal)
    (hsig : ∀ n, signal n = true ↔ K < n)
    (hK1 : cfg.startFrame ≤ K) (_hK2 : K ≤ cfg.endFrame)
    (hruns : (K - cfg.startFrame).toNat ≤
        (resultsOf (trackObject cfg cv (fun _ => false))).length) :
    (resultsOf (trackObject cfg cv signal)).length = (K - cfg.startFrame).toNat
    ∧ ∀ it ∈ trackObject cfg cv signal, pertFrame cfg.startFrame it ≤ K := by
  unfold trackObject at hruns ⊢
  by_cases halg : cfg.algorithm = .opticalFlow
  · rw [if_pos halg] at hruns ⊢
    unfold opticalFlowTrack at hruns ⊢
    have h := @flow_cancel_aux cfg cv K signal hsig
      (cfg.endFrame - cfg.startFrame).toNat
      (cfg.startFrame + 1) (flowPointX0 cfg) (flowPointY0 cfg) (by omega) (by omega)
    refine ⟨?_, h.2⟩
    rw [h.1]
    omega
  · rw [if_neg halg] at hruns ⊢
    unfold templateMatchTrack at hruns ⊢
    have h := @template_cancel_aux cfg cv K signal hsig
      (cfg.endFrame - cfg.startFrame).toNat
      (cfg.startFrame + 1) (matchCenterX0 cfg) (matchCenterY0 cfg) (by omega) (by omega)
    refine ⟨?_, h.2⟩
    rw [h.1]
    omega

/-- C6 witness: the optical-flow run over frames 1 through 3 with the signal
set between frames 1 and 2 yields exactly one result and nothing beyond
frame 1. -/
theorem c6_cancellation_count_witness :
    (resultsOf (trackObject cfgFlow cvTracked (fun n => decide (1 < n)))).length
      = ((1 : ℤ) - cfgFlow.startFrame).toNat
    ∧ ∀ it ∈ trackObject cfgFlow cvTracked (fun n => decide (1 < n)),
        pertFrame cfgFlow.startFrame it ≤ 1 :=
  c6_cancellation_count cfgFlow cvTracked 1 (fun n => decide (1 < n))
    (fun n => by simp) (by decide) (by decide) (by decide)

-- ── C9: match centers stay inside the video bounds ──

section Bounds

variable {cfg : TrackingConfig} {cv : CVEnv} {signal : Signal}

theorem clampZ_lower (v lo hi : ℤ) : lo ≤ clampZ v lo hi := le_max_left lo _

theorem searchX_nonneg (cX : ℚ) : 0 ≤ searchX cfg cX := clampZ_lower _ 0 _

theorem searchY_nonneg (cY : ℚ) : 0 ≤ searchY cfg cY := clampZ_lower _ 0 _

theorem searchW_le (cX : ℚ) : searchW cfg cX ≤ cfg.videoWidth - searchX cfg cX :=
  min_le_right _ _

theorem searchH_le (cY : ℚ) : searchH cfg cY ≤ cfg.videoHeight - searchY cfg cY :=
  min_le_right _ _

/-- The invariant carried by the match center along a template run. -/
def CenterInv (cfg : TrackingConfig) (cX cY : ℚ) : Prop :=
  (templateW cfg : ℚ) / 2 ≤ cX ∧ cX ≤ (cfg.videoWidth : ℚ) - (templateW cfg : ℚ) / 2 ∧
  (templateH cfg : ℚ) / 2 ≤ cY ∧ cY ≤ (cfg.videoHeight : ℚ) - (templateH cfg : ℚ) / 2

theorem centerInv_init : CenterInv cfg (matchCenterX0 cfg) (matchCenterY0 cfg) := by
  have hx0 : (0 : ℤ) ≤ roiRectX cfg := clampZ_lower _ 0 _
  have hy0 : (0 : ℤ) ≤ roiRectY cfg := clampZ_lower _ 0 _
  have hxw : roiRectW cfg ≤ cfg.videoWidth - roiRectX cfg := min_le_right _ _
  have hyh : roiRectH cfg ≤ cfg.videoHeight - roiRectY cfg := min_le_right _ _
  unfold CenterInv matchCenterX0 matchCenterY0 templateW templateH
  have hx0' : (0 : ℚ) ≤ (roiRectX cfg : ℚ) := by exact_mod_cast hx0
  have hy0' : (0 : ℚ) ≤ (roiRectY cfg : ℚ) := by exact_mod_cast hy0
  have hxw' : (roiRectX cfg : ℚ) + (roiRectW cfg : ℚ) ≤ (cfg.videoWidth : ℚ) := by
    have : roiRectX cfg + roiRectW cfg ≤ cfg.videoWidth := by omega
    exact_mod_cast this
  have hyh' : (roiRectY cfg : ℚ) + (roiRectH cfg : ℚ) ≤ (cfg.videoHeight : ℚ) := by
    have : roiRectY cfg + roiRectH cfg ≤ cfg.videoHeight := by omega
    exact_mod_cast this
  refine ⟨by linarith, by linarith, by linarith, by linarith⟩

theorem centerInv_step (hcv : MatchValid cv (templateW cfg) (templateH cfg))
    {cX cY : ℚ} (n : ℤ)
    (hfit : ¬ (searchW cfg cX < templateW cfg ∨ searchH cfg cY < templateH cfg)) :
    CenterInv cfg (nextCenterX cfg cv n cX cY) (nextCenterY cfg cv n cX cY) := by
  push_neg at hfit
  obtain ⟨hw, hh⟩ := hfit
  obtain ⟨hlx0, hlxw, hly0, hlyh⟩ :=
    hcv n (searchX cfg cX) (searchY cfg cY) (searchW cfg cX) (searchH cfg cY) hw hh
  have hsx0 : (0 : ℤ) ≤ searchX cfg cX := searchX_nonneg cX
  have hsy0 : (0 : ℤ) ≤ searchY cfg cY := searchY_nonneg cY
  have hswW : searchW cfg cX ≤ cfg.videoWidth - searchX cfg cX := searchW_le cX
  have hshH : searchH cfg cY ≤ cfg.videoHeight - searchY cfg cY := searchH_le cY
  unfold CenterInv nextCenterX nextCenterY stepMatch
  set lx := (cv.matchAt n (searchX cfg cX) (searchY cfg cY) (searchW cfg cX)
    (searchH cfg cY)).maxLocX
  set ly := (cv.matchAt n (searchX cfg cX) (searchY cfg cY) (searchW cfg cX)
    (searchH cfg cY)).maxLocY
  have h1 : (0 : ℤ) ≤ searchX cfg cX + lx := by omega
  have h2 : searchX cfg cX + lx ≤ cfg.videoWidth - templateW cfg := by omega
  have h3 : (0 : ℤ) ≤ searchY cfg cY + ly := by omega
  have h4 : searchY cfg cY + ly ≤ cfg.videoHeight - templateH cfg := by omega
  have h1' : (0 : ℚ) ≤ ((searchX cfg cX + lx : ℤ) : ℚ) := by exact_mod_cast h1
  have h2' : ((searchX cfg cX + lx : ℤ) : ℚ) ≤ (cfg.videoWidth : ℚ) - (templateW cfg : ℚ) := by
    have := h2
    push_cast
    exact_mod_cast this
  have h3' : (0 : ℚ) ≤ ((searchY cfg cY + ly : ℤ) : ℚ) := by exact_mod_cast h3
  have h4' : ((searchY cfg cY + ly : ℤ) : ℚ) ≤ (cfg.videoHeight : ℚ) - (templateH cfg : ℚ) := by
    have := h4
    push_cast
    exact_mod_cast this
  push_cast at h1' h2' h3' h4' ⊢
  refine ⟨by linarith, by linarith, by linarith, by linarith⟩

theorem template_bounds_aux (hcv : MatchValid cv (templateW cfg) (templateH cfg)) :
    ∀ (fuel : ℕ) (n : ℤ) (cX cY : ℚ), CenterInv cfg cX cY →
    ∀ r ∈ resultsOf (templateLoop cfg cv signal fuel n cX cY),
      (templateW cfg : ℚ) / 2 ≤ r.x ∧
      r.x ≤ (cfg.videoWidth : ℚ) - (templateW cfg : ℚ) / 2 ∧
      (templateH cfg : ℚ) / 2 ≤ r.y ∧
      r.y ≤ (cfg.videoHeight : ℚ) - (templateH cfg : ℚ) / 2 := by
  intro fuel
  induction fuel with
  | zero =>
    intro n cX cY hinv r hr
    rw [show templateLoop cfg cv signal 0 n cX cY = [] from rfl, resultsOf_nil] at hr
    cases hr
  | succ fuel ih =>
    intro n cX cY hinv r hr
    by_cases h1 : cfg.endFrame < n
    · rw [templateLoop_stop_end h1, resultsOf_nil] at hr
      cases hr
    · cases hs : signal n with
      | true =>
        rw [templateLoop_stop_sig h1 hs, resultsOf_nil] at hr
        cases hr
      | false =>
        by_cases hfit : searchW cfg cX < templateW cfg ∨ searchH cfg cY < templateH cfg
        · rw [templateLoop_lost h1 hs hfit, resultsOf_cons_prog, resultsOf_cons_res,
            resultsOf_nil] at hr
          simp only [List.mem_cons, List.not_mem_nil, or_false] at hr
          rw [hr]
          exact hinv
        · rw [templateLoop_step h1 hs hfit, resultsOf_cons_prog, resultsOf_cons_res] at hr
          simp only [List.mem_cons] at hr
          rcases hr with rfl | hr
          · exact centerInv_step hcv n hfit
          · exact ih (n + 1) _ _ (centerInv_step hcv n hfit) r hr

end Bounds

/-- Computation: the initial match center of cfgShrink is (10, 10). -/
theorem cfgShrink_center : matchCenterX0 cfgShrink = 10 ∧ matchCenterY0 cfgShrink = 10 := by
  have e1 : roiRectX cfgShrink = 0 := by
    rw [roiRectX, jsRound_eq_int _ 0 (by norm_num [cfgShrink])]
    decide
  have e1y : roiRectY cfgShrink = 0 := by
    rw [roiRectY, jsRound_eq_int _ 0 (by norm_num [cfgShrink])]
    decide
  have e2 : roiRectW cfgShrink = 20 := by
    rw [roiRectW, e1, jsRound_eq_int _ 20 (by norm_num [cfgShrink])]
    decide
  have e2y : roiRectH cfgShrink = 20 := by
    rw [roiRectH, e1y, jsRound_eq_int _ 20 (by norm_num [cfgShrink])]
    decide
  constructor
  · rw [matchCenterX0, e1, e2]
    norm_num
  · rw [matchCenterY0, e1y, e2y]
    norm_num

/-- Computation: with search margin minus 50 the clamped search window of
cfgShrink is thinner than the template at the initial center. -/
theorem cfgShrink_fitfail : searchW cfgShrink (matchCenterX0 cfgShrink) < templateW cfgShrink := by
  have e1 : roiRectX cfgShrink = 0 := by
    rw [roiRectX, jsRound_eq_int _ 0 (by norm_num [cfgShrink])]
    decide
  have e2 : roiRectW cfgShrink = 20 := by
    rw [roiRectW, e1, jsRound_eq_int _ 20 (by norm_num [cfgShrink])]
    decide
  have e3 : templateW cfgShrink = 20 := e2
  have e4 : matchCenterX0 cfgShrink = 10 := cfgShrink_center.1
  have e5 : searchX cfgShrink 10 = 50 := by
    rw [searchX, e3, jsRound_eq_int _ 50 (by norm_num [cfgShrink])]
    decide
  have e6 : searchW cfgShrink 10 = -80 := by
    rw [searchW, e3, e5, jsRound_eq_int _ (-80) (by norm_num [cfgShrink])]
    decide
  rw [e4, e6, e3]
  decide

/-- Computation: the cfgShrink run yields exactly one item pair, whose result
is the confidence-0 result at the initial center. -/
theorem cfgShrink_run_eval :
    resultsOf (templateMatchTrack cfgShrink cvCorner (fun _ => false)) =
      [⟨cfgShrink.startFrame + 1, matchCenterX0 cfgShrink, matchCenterY0 cfgShrink, 0⟩] := by
  rw [templateMatchTrack,
    show (cfgShrink.endFrame - cfgShrink.startFrame).toNat = 2 + 1 from by decide,
    templateLoop_lost (by decide) rfl (Or.inl cfgShrink_fitfail) 2]
  simp [resultsOf]

/-- C9: every result yielded by the template-match tracker lies inside the
video bounds, in the sense of the match-center invariant: the x coordinate is
between templateW / 2 and videoWidth - templateW / 2 and the y coordinate
between templateH / 2 and videoHeight - templateH / 2, where templateW and
templateH are the clamped template dimensions.  The invariant is established
by the initial ROI clamping and preserved by every search-window-constrained
update, including the terminal zero-confidence result, which repeats the
previous center; the only assumption is that minMaxLoc returns a location
inside the correlation matrix. -/
theorem c9_template_bounds (cfg : TrackingConfig) (cv : CVEnv) (signal : Signal)
    (hcv : MatchValid cv (templateW cfg) (templateH cfg)) :
    ∀ r ∈ resultsOf (templateMatchTrack cfg cv signal),
      (templateW cfg : ℚ) / 2 ≤ r.x ∧
      r.x ≤ (cfg.videoWidth : ℚ) - (templateW cfg : ℚ) / 2 ∧
      (templateH cfg : ℚ) / 2 ≤ r.y ∧
      r.y ≤ (cfg.videoHeight : ℚ) - (templateH cfg : ℚ) / 2 := by
  unfold templateMatchTrack
  exact template_bounds_aux hcv _ _ _ _ centerInv_init

/-- C9 witness: the corner-reporting oracle satisfies the minMaxLoc validity
assumption, and the single result of the concrete cfgShrink run — the
terminal confidence-0 result at the initial match center — lies inside the
bounds. -/
theorem c9_template_bounds_witness :
    (templateW cfgShrink : ℚ) / 2 ≤ matchCenterX0 cfgShrink
    ∧ matchCenterX0 cfgShrink ≤ (cfgShrink.videoWidth : ℚ) - (templateW cfgShrink : ℚ) / 2
    ∧ (templateH cfgShrink : ℚ) / 2 ≤ matchCenterY0 cfgShrink
    ∧ matchCenterY0 cfgShrink ≤ (cfgShrink.videoHeight : ℚ) - (templateH cfgShrink : ℚ) / 2 :=
  c9_template_bounds cfgShrink cvCorner (fun _ => false)
    (by
      intro n sx sy sw sh h1 h2
      simp only [cvCorner]
      refine ⟨by omega, by omega, by omega, by omega⟩)
    ⟨cfgShrink.startFrame + 1, matchCenterX0 cfgShrink, matchCenterY0 cfgShrink, 0⟩
    (by rw [cfgShrink_run_eval]; exact List.mem_singleton.mpr rfl)

-- ── C4: template cannot fit in the clamped search window ──

/-- C4: whenever the clamped search window cannot contain the template
(searchW < templateW or searchH < templateH), the template loop yields the
progress record for that frame and exactly one final confidence-0 result at
the last known match center, then terminates; in particular when this happens
on the very first tracked frame the whole run yields exactly one result,
which has confidence 0 and sits at the initial match center. -/
theorem c4_template_window_fit (cfg : TrackingConfig) (cv : CVEnv) (signal : Signal) :
    (∀ (fuel : ℕ) (n : ℤ) (cX cY : ℚ), ¬ cfg.endFrame < n → signal n = false →
      (searchW cfg cX < templateW cfg ∨ searchH cfg cY < templateH cfg) →
      templateLoop cfg cv signal (fuel + 1) n cX cY =
        [.progress (n - cfg.startFrame) (cfg.endFrame - cfg.startFrame),
         .result ⟨n, cX, cY, 0⟩])
    ∧ (cfg.startFrame < cfg.endFrame → signal (cfg.startFrame + 1) = false →
      (searchW cfg (matchCenterX0 cfg) < templateW cfg ∨
       searchH cfg (matchCenterY0 cfg) < templateH cfg) →
      resultsOf (templateMatchTrack cfg cv signal) =
        [⟨cfg.startFrame + 1, matchCenterX0 cfg, matchCenterY0 cfg, 0⟩]) := by
  constructor
  · intro fuel n cX cY h hs hfit
    exact templateLoop_lost h hs hfit fuel
  · intro hrange hs hfit
    obtain ⟨m, hm⟩ : ∃ m, (cfg.endFrame - cfg.startFrame).toNat = m + 1 :=
      ⟨(cfg.endFrame - cfg.startFrame).toNat - 1, by omega⟩
    rw [templateMatchTrack, hm,
      templateLoop_lost (by omega) hs hfit m]
    simp [resultsOf]

/-- C4 witness: with a 20 by 20 template and search margin minus 50 the
clamped search window is thinner than the template on the very first tracked
frame, and the whole run yields exactly the one confidence-0 result at the
initial match center. -/
theorem c4_template_window_fit_witness :
    resultsOf (templateMatchTrack cfgShrink cvCorner (fun _ => false)) =
      [⟨cfgShrink.startFrame + 1, matchCenterX0 cfgShrink, matchCenterY0 cfgShrink, 0⟩] :=
  (c4_template_window_fit cfgShrink cvCorner (fun _ => false)).2 (by decide) rfl
    (Or.inl cfgShrink_fitfail)

-- ── C3: threshold consumption and the committed point set ──

theorem removePoint_pointsById (id : ℕ) (st : SessionState) :
    (removePoint id st).pointsById = st.pointsById := by
  unfold removePoint
  cases st.pointsById id <;> rfl

theorem removePoint_nextId (id : ℕ) (st : SessionState) :
    (removePoint id st).nextId = st.nextId := by
  unfold removePoint
  cases st.pointsById id <;> rfl

theorem commitTarget_pointsById (st : SessionState) (r : TrackingResult) :
    (commitTarget st r).pointsById = st.pointsById := by
  unfold commitTarget
  cases st.trackPoints r.frameNumber with
  | none => rfl
  | some oldId => exact removePoint_pointsById oldId st

theorem commitTarget_nextId (st : SessionState) (r : TrackingResult) :
    (commitTarget st r).nextId = st.nextId := by
  unfold commitTarget
  cases st.trackPoints r.frameNumber with
  | none => rfl
  | some oldId => exact removePoint_nextId oldId st

theorem commitOne_skip (env : SessionEnv) (st : SessionState) (d : List ℕ)
    (r : TrackingResult) (h : env.frameExists r.frameNumber = false) :
    commitOne env (st, d) r = (st, d) := by
  unfold commitOne
  rw [h]
  rfl

theorem commitOne_add (env : SessionEnv) (st : SessionState) (d : List ℕ)
    (r : TrackingResult) (h : env.frameExists r.frameNumber = true) :
    commitOne env (st, d) r =
      (commitInsert env (commitTarget st r) r, d ++ [(commitTarget st r).nextId]) := by
  unfold commitOne
  rw [h]
  rfl

theorem commit_fold_acc (env : SessionEnv) :
    ∀ (results : List TrackingResult) (st : SessionState) (d : List ℕ),
    results.foldl (commitOne env) (st, d) =
      ((results.foldl (commitOne env) (st, [])).1,
        d ++ (results.foldl (commitOne env) (st, [])).2) := by
  intro results
  induction results with
  | nil =>
    intro st d
    simp
  | cons r rest ih =>
    intro st d
    rw [List.foldl_cons, List.foldl_cons]
    cases hfe : env.frameExists r.frameNumber with
    | false =>
      rw [commitOne_skip env st d r hfe, commitOne_skip env st [] r hfe]
      exact ih st d
    | true =>
      rw [commitOne_add env st d r hfe, commitOne_add env st [] r hfe,
        ih (commitInsert env (commitTarget st r) r) (d ++ [(commitTarget st r).nextId]),
        ih (commitInsert env (commitTarget st r) r) ([] ++ [(commitTarget st r).nextId])]
      dsimp only
      rw [List.nil_append, List.append_assoc]

theorem commit_fold (env : SessionEnv) :
    ∀ (results : List TrackingResult) (st : SessionState),
    (∀ j, st.nextId ≤ j → st.pointsById j = none) →
    (∀ r ∈ results, env.frameExists r.frameNumber = true) →
    ((results.foldl (commitOne env) (st, [])).2.map
        (fun id => (results.foldl (commitOne env) (st, [])).1.pointsById id)
      = results.map fun r => (some ⟨r.frameNumber, r.x, r.y⟩ : Option PointData))
    ∧ (∀ j, (results.foldl (commitOne env) (st, [])).1.nextId ≤ j →
        (results.foldl (commitOne env) (st, [])).1.pointsById j = none)
    ∧ (∀ j, j < st.nextId →
        (results.foldl (commitOne env) (st, [])).1.pointsById j = st.pointsById j)
    ∧ st.nextId ≤ (results.foldl (commitOne env) (st, [])).1.nextId := by
  intro results
  induction results with
  | nil =>
    intro st hfresh _
    exact ⟨rfl, hfresh, fun j _ => rfl, le_refl _⟩
  | cons r rest ih =>
    intro st hfresh hex
    have hf : env.frameExists r.frameNumber = true := hex r (List.mem_cons_self r rest)
    set st2 := commitInsert env (commitTarget st r) r with hst2
    have hps2 : ∀ j, st2.pointsById j =
        if j = st.nextId then some ⟨r.frameNumber, r.x, r.y⟩ else st.pointsById j := by
      intro j
      rw [hst2]
      show (if j = (commitTarget st r).nextId then some ⟨r.frameNumber, r.x, r.y⟩
          else (commitTarget st r).pointsById j) = _
      rw [commitTarget_nextId, commitTarget_pointsById]
    have hn2 : st2.nextId = st.nextId + 1 := by
      rw [hst2]
      show (commitTarget st r).nextId + 1 = _
      rw [commitTarget_nextId]
    have hfresh2 : ∀ j, st2.nextId ≤ j → st2.pointsById j = none := by
      intro j hj
      rw [hn2] at hj
      rw [hps2 j, if_neg (by omega)]
      exact hfresh j (by omega)
    have hex2 : ∀ r' ∈ rest, env.frameExists r'.frameNumber = true :=
      fun r' hr' => hex r' (List.mem_cons_of_mem r hr')
    obtain ⟨ihmap, ihfresh, ihpres, ihle⟩ := ih st2 hfresh2 hex2
    rw [List.foldl_cons, commitOne_add env st [] r hf, ← hst2, commitTarget_nextId,
      List.nil_append, commit_fold_acc env rest st2 [st.nextId]]
    dsimp only
    refine ⟨?_, ?_, ?_, ?_⟩
    · rw [List.singleton_append, List.map_cons, List.map_cons]
      rw [ihpres st.nextId (by omega), hps2 st.nextId, if_pos rfl]
      rw [ihmap]
    · exact ihfresh
    · intro j hj
      rw [ihpres j (by omega), hps2 j, if_neg (by omega)]
    · omega

/-- C3: the consumption loop stops at the first result whose confidence is
below the threshold 0.5 — the accumulated results are exactly the longest
prefix of the yielded results all of whose confidences are at least 0.5 —
every accumulated result meets the threshold (a below-threshold result is
never committed), and committing the accumulated batch creates exactly one
point per accumulated result, carrying that result's frame and coordinates,
whatever truncation of the stream cancellation or an error produced. -/
theorem c3_threshold_consumption (items : List Item) (env : SessionEnv)
    (st : SessionState)
    (hfresh : ∀ j, st.nextId ≤ j → st.pointsById j = none)
    (hex : ∀ r ∈ consumeResults items, env.frameExists r.frameNumber = true) :
    consumeResults items =
      (resultsOf items).takeWhile (fun r => decide (confidenceThreshold ≤ r.confidence))
    ∧ (∀ r ∈ consumeResults items, confidenceThreshold ≤ r.confidence)
    ∧ (commitAdded env st (consumeResults items)).map
        (fun id => (commitBatch env st (consumeResults items)).pointsById id)
      = (consumeResults items).map
          fun r => (some ⟨r.frameNumber, r.x, r.y⟩ : Option PointData) := by
  refine ⟨?_, ?_, ?_⟩
  · clear hfresh hex
    induction items with
    | nil => rfl
    | cons it rest ih =>
      cases it with
      | progress f t =>
        rw [show consumeResults (.progress f t :: rest) = consumeResults rest from rfl,
          resultsOf_cons_prog]
        exact ih
      | result r =>
        rw [resultsOf_cons_res]
        by_cases hc : r.confidence < confidenceThreshold
        · rw [show consumeResults (.result r :: rest) = [] from by
            simp only [consumeResults]; rw [if_pos hc]]
          rw [List.takeWhile_cons_of_neg (by simp [not_le.mpr hc])]
        · rw [show consumeResults (.result r :: rest) = r :: consumeResults rest from by
            simp only [consumeResults]; rw [if_neg hc]]
          rw [List.takeWhile_cons_of_pos (by simp [not_lt.mp hc])]
          rw [ih]
  · clear hfresh hex
    induction items with
    | nil =>
      intro r hr
      cases hr
    | cons it rest ih =>
      cases it with
      | progress f t => exact ih
      | result r' =>
        by_cases hc : r'.confidence < confidenceThreshold
        · rw [show consumeResults (.result r' :: rest) = [] from by
            simp only [consumeResults]; rw [if_pos hc]]
          intro r hr
          cases hr
        · rw [show consumeResults (.result r' :: rest) = r' :: consumeResults rest from by
            simp only [consumeResults]; rw [if_neg hc]]
          intro r hr
          rcases List.mem_cons.mp hr with rfl | hr
          · exact not_lt.mp hc
          · exact ih r hr
  · unfold commitAdded commitBatch
    by_cases hnil : consumeResults items = []
    · rw [hnil]
      rfl
    · rw [if_neg hnil]
      exact (commit_fold env (consumeResults items) st hfresh hex).1

/-- C3 witness: a stream with an accepted result at frame 11, a progress
record, an accepted result at frame 12, a below-threshold result and a
further (never consumed) result; the accumulated list is the prefix before
the threshold break and committing it creates exactly those two points. -/
theorem c3_threshold_consumption_witness :
    consumeResults itemsMixed =
      (resultsOf itemsMixed).takeWhile (fun r => decide (confidenceThreshold ≤ r.confidence))
    ∧ (∀ r ∈ consumeResults itemsMixed, confidenceThreshold ≤ r.confidence)
    ∧ (commitAdded envAll stEmpty (consumeResults itemsMixed)).map
        (fun id => (commitBatch envAll stEmpty (consumeResults itemsMixed)).pointsById id)
      = (consumeResults itemsMixed).map
          fun r => (some ⟨r.frameNumber, r.x, r.y⟩ : Option PointData) :=
  c3_threshold_consumption itemsMixed envAll stEmpty (fun _ _ => rfl) (fun _ _ => rfl)

-- ── C10: an empty accepted batch skips the commit phase, cleanup still runs ──

/-- C10: when the consumption loop ends with zero accepted results, the
commit phase is skipped entirely — the track mapping, the per-frame point
lists, the allocated points, the data table, the undo history and the
playhead are all left exactly as they were — while the session cleanup still
runs: the playhead is restored, the detached tracking video is torn down, the
modal is reset and the ROI overlay removed. -/
theorem c10_empty_commit_skip (env : SessionEnv) (st : SessionState) (items : List Item)
    (hempty : consumeResults items = []) :
    (runningPhase env st items).trackPoints = st.trackPoints
    ∧ (runningPhase env st items).framePoints = st.framePoints
    ∧ (runningPhase env st items).pointsById = st.pointsById
    ∧ (runningPhase env st items).nextId = st.nextId
    ∧ (runningPhase env st items).activeFrames = st.activeFrames
    ∧ (runningPhase env st items).tableRows = st.tableRows
    ∧ (runningPhase env st items).undoStack = st.undoStack
    ∧ (runningPhase env st items).currentFrame = st.currentFrame
    ∧ (runningPhase env st items).trackingVideoActive = false
    ∧ (runningPhase env st items).modalOpen = false
    ∧ (runningPhase env st items).overlayActive = false := by
  unfold runningPhase
  rw [hempty, show commitBatch env st [] = st from by unfold commitBatch; rw [if_pos rfl]]
  unfold sessionCleanup
  exact ⟨rfl, rfl, rfl, rfl, rfl, rfl, rfl, rfl, rfl, rfl, rfl⟩

/-- C10 witness: a stream whose first result is below the threshold leaves the
empty track untouched while the cleanup flags are set. -/
theorem c10_empty_commit_skip_witness :
    (runningPhase envAll stEmpty itemsLow).trackPoints = stEmpty.trackPoints
    ∧ (runningPhase envAll stEmpty itemsLow).framePoints = stEmpty.framePoints
    ∧ (runningPhase envAll stEmpty itemsLow).pointsById = stEmpty.pointsById
    ∧ (runningPhase envAll stEmpty itemsLow).nextId = stEmpty.nextId
    ∧ (runningPhase envAll stEmpty itemsLow).activeFrames = stEmpty.activeFrames
    ∧ (runningPhase envAll stEmpty itemsLow).tableRows = stEmpty.tableRows
    ∧ (runningPhase envAll stEmpty itemsLow).undoStack = stEmpty.undoStack
    ∧ (runningPhase envAll stEmpty itemsLow).currentFrame = stEmpty.currentFrame
    ∧ (runningPhase envAll stEmpty itemsLow).trackingVideoActive = false
    ∧ (runningPhase envAll stEmpty itemsLow).modalOpen = false
    ∧ (runningPhase envAll stEmpty itemsLow).overlayActive = false :=
  c10_empty_commit_skip envAll stEmpty itemsLow
    (by norm_num [itemsLow, consumeResults, confidenceThreshold])

-- ── C1: the compound undo action loses overwritten points ──

/-- C1 (code bug): committing the batch resultsPre into a track holding a
pre-existing point at frame 11 registers exactly one compound undo action
covering both added points, and invoking its redo after an undo re-adds
exactly the two added points; but invoking its undo does NOT restore the
pre-existing point 0 at frame 11 — the registered undo closure only calls
remove() on the added points and never unRemoves the points that were
overwritten during commit, so track.points at frame 11 ends empty instead of
holding point 0 again, contradicting the claimed exact restoration. -/
theorem c1_compound_undo_bug :
    stAfterCommit.undoStack = [⟨[1, 2]⟩]
    ∧ stPre.trackPoints 11 = some 0
    ∧ (runUndo ⟨[1, 2]⟩ stAfterCommit).trackPoints 11 = none
    ∧ (runUndo ⟨[1, 2]⟩ stAfterCommit).trackPoints 12 = none
    ∧ (runRedo ⟨[1, 2]⟩ (runUndo ⟨[1, 2]⟩ stAfterCommit)).trackPoints 11 = some 1
    ∧ (runRedo ⟨[1, 2]⟩ (runUndo ⟨[1, 2]⟩ stAfterCommit)).trackPoints 12 = some 2 := by
  decide

/-- C8 witness: frameCount 100 with parsed fields 5, 20, 3 is accepted and
matches the spec condition; an inverted range 20, 5 is rejected and the
session state is returned unchanged. -/
theorem c8_validation_equiv_witness :
    specAcceptsConfig 100 (some 5) (some 20) (some 3)
    ∧ validateConfig 100 (some 20) (some 5) (some 3) = .badRange := by
  constructor
  · exact (c8_validation_equiv 100 (some 5) (some 20) (some 3)).1.mp
      ⟨5, 20, 3, by decide⟩
  · decide

end JsTrack
